import Mathlib

/-!
Verification development for the `swpt_lib` repository.

The file shallowly embeds the table-scanning subsystem
(`src/swpt_lib/scan_table.py`: `TableReader`, `Rhythm`, `TableScanner`)
and the signed/unsigned 64-bit codecs (`src/swpt_lib/utils.py`), and
proves the specification's testable properties about them.

Modelling conventions:
* A database table is a list of physical pages, each page a list of rows
  (`pages : List (List α)`).  `pg_relation_size / block_size` equals
  `pages.length`, so the page-count query of
  `TableReader._ensure_valid_current_block` returns
  `pages.length + 1` (`total_blocks`), exactly as in the source
  (`last_block.scalar() + 1`).
* The `ctid`-range query of `TableReader._advance_current_block`
  returns the rows of the requested pages in physical (page) order;
  pages beyond the end of the table contribute no rows
  (`List.getD _ []`).
* `random.randrange(n)` is modelled by an explicit nondeterminism
  parameter `draw : Nat`; `randrange n draw = draw % n`, which ranges
  over exactly `[0, n)` as `draw` does.
* Exceptions are values: `EndOfTableError` is the `Except.error`
  outcome of `advance_current_block`; the error payload is the mutated
  state at raise time.
* Python `timedelta` values are integer numbers of microseconds
  (Python's own resolution).  `math.ceil(a / b)` on nonnegative
  integers is embedded as exact ceiling division `ceil_div`.
* The unbounded `while` loop of `TableReader.read_rows` is embedded
  with structural fuel `total_blocks pages + 2`; for
  `blocks_per_query ≥ 1` (asserted in `TableReader.__init__`) the loop
  is proved to finish strictly within this fuel, so the embedding
  computes exactly the loop's result.
* Instrumentation: `ReaderState.queries` counts the database queries
  issued (one for the page-count query, one for each row fetch); the
  Python code has no such counter, it only serves to state that a call
  issues no query.
-/

/-! ### `swpt_lib/utils.py`: 64-bit signed/unsigned codecs -/

def _MAX_INT64 : Int := (1 <<< 63) - 1

def _MIN_INT64 : Int := -(1 <<< 63)

def _MAX_UINT64 : Int := (1 <<< 64) - 1

def _I64_SPAN : Int := _MAX_UINT64 + 1

/-- Embeds `utils.i64_to_u64` (lines 40-52): convert a signed 64-bit integer to
an unsigned one, raising `ValueError` (the `Except.error` outcome) when
the argument is out of the signed 64-bit range. -/
def i64_to_u64 (value : Int) : Except Unit Int :=
  if value > _MAX_INT64 ∨ value < _MIN_INT64 then Except.error ()
  else if value ≥ 0 then Except.ok value
  else Except.ok (value + _I64_SPAN)

/-- Embeds `utils.u64_to_i64` (lines 55-67): convert an unsigned 64-bit integer
to a signed one, raising `ValueError` when the argument is out of the
unsigned 64-bit range. -/
def u64_to_i64 (value : Int) : Except Unit Int :=
  if value > _MAX_UINT64 ∨ value < 0 then Except.error ()
  else if value ≤ _MAX_INT64 then Except.ok value
  else Except.ok (value - _I64_SPAN)

/-! ### `TableScanner.__calc_rhythm` sizing arithmetic (lines 171-177) -/

/-- Exact ceiling division on naturals; embeds Python's
`math.ceil(a / b)` for nonnegative integers and `b ≥ 1` (the float
detour of Python's true division is idealized as exact arithmetic). -/
def ceil_div (a b : Nat) : Nat := (a + b - 1) / b

/-- Line 174: `max(1, completion_goal // timedelta(milliseconds=target_beat_duration))`.
Durations are in microseconds, `target_beat_duration` in milliseconds;
`timedelta // timedelta` is floor division of the exact ratio. -/
def target_number_of_beats (completion_goal_us target_beat_duration_ms : Nat) : Nat :=
  max 1 (completion_goal_us / (1000 * target_beat_duration_ms))

/-- Line 175: `max(1, ceil(total_rows / target_number_of_beats))`. -/
def rows_per_beat (total_rows completion_goal_us target_beat_duration_ms : Nat) : Nat :=
  max 1 (ceil_div total_rows (target_number_of_beats completion_goal_us target_beat_duration_ms))

/-- Line 176: `max(1, ceil(total_rows / rows_per_beat))`. -/
def number_of_beats (total_rows completion_goal_us target_beat_duration_ms : Nat) : Nat :=
  max 1 (ceil_div total_rows (rows_per_beat total_rows completion_goal_us target_beat_duration_ms))

/-- CPython's `_divide_and_round` (used by `timedelta / int`,
`Rhythm.__init__` line 94): divide and round to nearest, ties to even. -/
def divide_and_round (a b : Nat) : Nat :=
  let q := a / b
  let r := a % b
  if b < 2 * r ∨ (2 * r = b ∧ q % 2 = 1) then q + 1 else q

/-- Embeds line 94 of `Rhythm.__init__`: `beat_duration = completion_goal / number_of_beats`,
a `timedelta / int` division rounded to whole microseconds. -/
def beat_duration_us (completion_goal_us number_of_beats : Nat) : Nat :=
  divide_and_round completion_goal_us number_of_beats

/-- Modelled from the spec's five-step sizing reference definition
(§4.3), with step 1 read literally: `targetBeats = max(1,
completionGoal / targetBeatDuration)` with true (rational) division,
and step 3 `rowsPerBeat = max(1, ceil(totalRows / targetBeats))`. -/
def spec_target_beats (completion_goal_us target_beat_duration_ms : Nat) : ℚ :=
  max 1 ((completion_goal_us : ℚ) / ((1000 : ℚ) * (target_beat_duration_ms : ℚ)))

/-- Step 3 of the spec's sizing reference definition, on top of the
literal (rational) step 1. -/
def spec_rows_per_beat (total_rows completion_goal_us target_beat_duration_ms : Nat) : Int :=
  max 1 ⌈(total_rows : ℚ) / spec_target_beats completion_goal_us target_beat_duration_ms⌉

/-- Modelled from the spec's five-step sizing reference definition
(§4.3) with step 1's division read as floor division of the two
durations (the code's `//`): returns
`(targetBeats, rowsPerBeat, numberOfBeats)`. -/
def spec_sizing_floor (total_rows completion_goal_us target_beat_duration_ms : Nat) :
    Nat × Nat × Nat :=
  let targetBeats := max 1 (completion_goal_us / (1000 * target_beat_duration_ms))
  let rowsPerBeat := max 1 (ceil_div total_rows targetBeats)
  let numberOfBeats := max 1 (ceil_div total_rows rowsPerBeat)
  (targetBeats, rowsPerBeat, numberOfBeats)

/-! ### `Rhythm` pacing state (lines 79-113) -/

/-- Embeds `Rhythm.TD_MIN_SLEEPTIME = timedelta(milliseconds=10)`, in µs. -/
def TD_MIN_SLEEPTIME : Int := 10000

/-- The mutable state of a `Rhythm` instance that pacing decisions
depend on.  `last_beat_ended_at` and `rhythm_ends_at` are wall-clock
timestamps; the difference `now - last_beat_ended_at` measured by
`_register_elapsed_time` is passed to `register_beat` as an explicit
`elapsed` argument, so the timestamps themselves need not be stored. -/
structure RhythmState where
  beat_duration : Int
  extra_time : Int
deriving Repr, DecidableEq

/-- Embeds `Rhythm.__init__` (lines 90-97): `beat_duration = completion_goal /
number_of_beats`, `extra_time = 0`. -/
def Rhythm_init (completion_goal_us number_of_beats : Nat) : RhythmState :=
  { beat_duration := (beat_duration_us completion_goal_us number_of_beats : Int),
    extra_time := 0 }

/-- Embeds `Rhythm.register_beat` (lines 105-109).  `elapsed` is the measured
time since the previous beat ended; `sleep_measured` is the measured
duration of the `time.sleep` call, when one happens.  Returns the new
state and whether the beat slept. -/
def register_beat (s : RhythmState) (elapsed sleep_measured : Int) : RhythmState × Bool :=
  let e := s.extra_time + (s.beat_duration - elapsed)
  if TD_MIN_SLEEPTIME < e then
    ({ s with extra_time := e - sleep_measured }, true)
  else
    ({ s with extra_time := e }, false)

/-! ### `TableReader` (lines 21-76) -/

/-- The mutable state of a `TableReader`: the page cursor
(`current_block`, `-1` meaning uninitialized), the FIFO row buffer
(`queue`), and an instrumentation counter of issued database queries. -/
structure ReaderState (α : Type) where
  current_block : Int
  queue : List α
  queries : Nat
deriving Repr, DecidableEq

/-- The page count reported by `LAST_BLOCK_QUERY` plus one
(`_ensure_valid_current_block` line 40: `last_block.scalar() + 1`). -/
def total_blocks (pages : List (List α)) : Nat := pages.length + 1

/-- Embeds `random.randrange n`, with the random draw made explicit:
`randrange n draw` ranges over exactly `[0, n)` as `draw` does, each
value being hit by equally many draws from any aligned range. -/
def randrange (n draw : Nat) : Nat := draw % n

/-- Embeds `TableReader._ensure_valid_current_block` (lines 38-45): issue the
page-count query, randomize an uninitialized cursor, and raise
`EndOfTableError` (the `Except.error` outcome, carrying the mutated
state) when the cursor is at or past the reported page count. -/
def ensure_valid_current_block (pages : List (List α)) (draw : Nat) (s : ReaderState α) :
    Except (ReaderState α) (ReaderState α) :=
  let s1 : ReaderState α := { s with queries := s.queries + 1 }
  let s2 : ReaderState α :=
    if s1.current_block < 0 then
      { s1 with current_block := (randrange (total_blocks pages) draw : Int) }
    else s1
  if (total_blocks pages : Int) ≤ s2.current_block then Except.error s2 else Except.ok s2

/-- The rows returned by the `ctid`-range query for pages
`[first, first + n)`: each page in the range contributes its rows in
order; nonexistent pages contribute nothing. -/
def fetchPages (pages : List (List α)) (first n : Nat) : List α :=
  (List.range n).flatMap fun i => pages.getD (first + i) []

/-- Embeds `TableReader._advance_current_block` (lines 47-59): validate the
cursor, fetch the next `blocks_per_query` pages, and advance the
cursor past them. -/
def advance_current_block (pages : List (List α)) (bpq draw : Nat) (s : ReaderState α) :
    Except (ReaderState α) (List α × ReaderState α) :=
  match ensure_valid_current_block pages draw s with
  | Except.error s1 => Except.error s1
  | Except.ok s1 =>
      let first := s1.current_block.toNat
      let s2 : ReaderState α :=
        { s1 with current_block := s1.current_block + (bpq : Int), queries := s1.queries + 1 }
      Except.ok (fetchPages pages first bpq, s2)

/-- The `while len(self.queue) < count` loop of `TableReader.read_rows`
(lines 65-70), with structural fuel: extend the queue from successive
page ranges until it holds `count` rows, or until `EndOfTableError` is
caught, in which case the cursor is reset to `0` and the loop breaks. -/
def fillQueueAux (pages : List (List α)) (bpq draw : Nat) (count : Int) :
    Nat → ReaderState α → ReaderState α
  | 0, s => s
  | fuel + 1, s =>
      if (s.queue.length : Int) < count then
        match advance_current_block pages bpq draw s with
        | Except.error s1 => { s1 with current_block := 0 }
        | Except.ok (rows, s1) =>
            fillQueueAux pages bpq draw count fuel { s1 with queue := s1.queue ++ rows }
      else s

/-- The fill loop with its sufficient fuel `total_blocks pages + 2`
(proved sufficient for `bpq ≥ 1` in `fillQueueAux_spec`). -/
def fillQueue (pages : List (List α)) (bpq draw : Nat) (count : Int) (s : ReaderState α) :
    ReaderState α :=
  fillQueueAux pages bpq draw count (total_blocks pages + 2) s

/-- Embeds `TableReader.read_rows` (lines 61-76): fill the queue, then pop at
most `count` rows from its front. -/
def read_rows (pages : List (List α)) (bpq draw : Nat) (count : Int) (s : ReaderState α) :
    List α × ReaderState α :=
  let s1 := fillQueue pages bpq draw count s
  (s1.queue.take count.toNat, { s1 with queue := s1.queue.drop count.toNat })

/-- The page at which the next fetch of a reader in state `s` would
start: the cursor itself, or the randomized start for an uninitialized
cursor. -/
def startBlock (pages : List (List α)) (draw : Nat) (s : ReaderState α) : Int :=
  if s.current_block < 0 then (randrange (total_blocks pages) draw : Int) else s.current_block

/-- The rows a reader in state `s` will still deliver before its cursor
wraps past the end of the table: the buffered rows followed by the
rows of the not-yet-scanned pages. -/
def reachableRows (pages : List (List α)) (draw : Nat) (s : ReaderState α) : List α :=
  s.queue ++ ((pages.drop (startBlock pages draw s).toNat).flatten)

/-- Runs `k` successive `read_rows` calls, returning the concatenation of
their results and the final reader state. -/
def iterRead (pages : List (List α)) (bpq draw : Nat) (count : Int) :
    Nat → ReaderState α → List α × ReaderState α
  | 0, s => ([], s)
  | k + 1, s =>
      let p := read_rows pages bpq draw count s
      let q := iterRead pages bpq draw count k p.2
      (p.1 ++ q.1, q.2)

/-! ### `TableScanner.run` inner loop (lines 197-203) -/

/-- One lap of `TableScanner.run`'s inner `while not rhythm.has_ended`
loop, driven by the finite list of observed beat timings
`(elapsed, sleep_measured)`.  Each beat reads `rows_per_beat` rows
(the quota recorded in the returned list), hands them to the
callback (which has no effect on the scanner's state), and registers
the beat. -/
def run_lap (pages : List (List α)) (bpq draw : Nat) (rpb : Nat)
    (timings : List (Int × Int)) (s : ReaderState α) (rh : RhythmState) :
    ReaderState α × RhythmState × List Int :=
  match timings with
  | [] => (s, rh, [])
  | (elapsed, slept) :: rest =>
      let p := read_rows pages bpq draw (rpb : Int) s
      let rb := register_beat rh elapsed slept
      let rec_result := run_lap pages bpq draw rpb rest p.2 rb.1
      (rec_result.1, rec_result.2.1, (rpb : Int) :: rec_result.2.2)

/-! ### Helper lemmas about the reader -/

theorem startBlock_nonneg (pages : List (List α)) (draw : Nat) (s : ReaderState α) :
    0 ≤ startBlock pages draw s := by
  unfold startBlock
  split
  · exact Int.natCast_nonneg _
  · omega

theorem fetchPages_eq (pages : List (List α)) (first n : Nat) :
    fetchPages pages first n = ((pages.drop first).take n).flatten := by
  induction n with
  | zero => simp [fetchPages]
  | succ n ih =>
      have hstep : fetchPages pages first (n + 1) =
          fetchPages pages first n ++ pages.getD (first + n) [] := by
        unfold fetchPages
        rw [List.range_succ, List.flatMap_append]
        simp
      rw [hstep, ih, List.take_succ, List.flatten_append]
      congr 1
      rw [List.getElem?_drop]
      cases h : pages[first + n]? with
      | none => simp [List.getD_eq_getElem?_getD, h]
      | some p => simp [List.getD_eq_getElem?_getD, h]

theorem ensure_eq (pages : List (List α)) (draw : Nat) (s : ReaderState α) :
    ensure_valid_current_block pages draw s =
      (if (total_blocks pages : Int) ≤ startBlock pages draw s then
        Except.error
          { s with current_block := startBlock pages draw s, queries := s.queries + 1 }
      else
        Except.ok
          { s with current_block := startBlock pages draw s, queries := s.queries + 1 }) := by
  unfold ensure_valid_current_block startBlock
  by_cases h : s.current_block < 0 <;> simp [h]

theorem advance_eq (pages : List (List α)) (bpq draw : Nat) (s : ReaderState α) :
    advance_current_block pages bpq draw s =
      (if (total_blocks pages : Int) ≤ startBlock pages draw s then
        Except.error
          { s with current_block := startBlock pages draw s, queries := s.queries + 1 }
      else
        Except.ok (fetchPages pages (startBlock pages draw s).toNat bpq,
          { s with current_block := startBlock pages draw s + (bpq : Int),
                   queries := s.queries + 1 + 1 })) := by
  unfold advance_current_block
  rw [ensure_eq]
  by_cases h : (total_blocks pages : Int) ≤ startBlock pages draw s <;> simp [h]

theorem reachableRows_queue_le (pages : List (List α)) (draw : Nat) (s : ReaderState α) :
    s.queue.length ≤ (reachableRows pages draw s).length := by
  unfold reachableRows
  simp

theorem startBlock_of_nonneg (pages : List (List α)) (draw : Nat) (s : ReaderState α)
    (h : 0 ≤ s.current_block) : startBlock pages draw s = s.current_block := by
  unfold startBlock
  rw [if_neg (by omega)]

theorem fillQueueAux_spec (pages : List (List α)) (bpq draw : Nat) (count : Int)
    (hb : 1 ≤ bpq) :
    ∀ (fuel : Nat) (s : ReaderState α),
      ((total_blocks pages : Int) + 1 - startBlock pages draw s).toNat < fuel →
      ((((reachableRows pages draw s).length : Int) < count →
          (fillQueueAux pages bpq draw count fuel s).current_block = 0 ∧
          (fillQueueAux pages bpq draw count fuel s).queue = reachableRows pages draw s) ∧
       (count ≤ ((reachableRows pages draw s).length : Int) →
          reachableRows pages draw (fillQueueAux pages bpq draw count fuel s) =
            reachableRows pages draw s ∧
          count ≤ ((fillQueueAux pages bpq draw count fuel s).queue.length : Int))) := by
  intro fuel
  induction fuel with
  | zero => intro s hf; omega
  | succ fuel ih =>
      intro s hf
      by_cases hq : (s.queue.length : Int) < count
      · by_cases hend : (total_blocks pages : Int) ≤ startBlock pages draw s
        · -- the advance raises EndOfTableError: the loop breaks, cursor reset to 0
          have hE : fillQueueAux pages bpq draw count (fuel + 1) s =
              { s with current_block := 0, queries := s.queries + 1 } := by
            simp [fillQueueAux, hq, advance_eq, hend]
          have hreach : reachableRows pages draw s = s.queue := by
            unfold reachableRows
            rw [List.drop_eq_nil_of_le (by unfold total_blocks at hend; omega)]
            simp
          constructor
          · intro _
            rw [hE, hreach]
            exact ⟨rfl, rfl⟩
          · intro hge
            exfalso
            rw [hreach] at hge
            omega
        · push_neg at hend
          have hsb0 : 0 ≤ startBlock pages draw s := startBlock_nonneg pages draw s
          have hE : fillQueueAux pages bpq draw count (fuel + 1) s =
              fillQueueAux pages bpq draw count fuel
                { s with current_block := startBlock pages draw s + (bpq : Int),
                         queries := s.queries + 1 + 1,
                         queue := s.queue ++
                           fetchPages pages (startBlock pages draw s).toNat bpq } := by
            simp [fillQueueAux, hq, advance_eq, hend.not_le]
          set snext : ReaderState α :=
            { s with current_block := startBlock pages draw s + (bpq : Int),
                     queries := s.queries + 1 + 1,
                     queue := s.queue ++
                       fetchPages pages (startBlock pages draw s).toNat bpq } with hsnext
          have hcb : snext.current_block = startBlock pages draw s + (bpq : Int) := rfl
          have hstart : startBlock pages draw snext = startBlock pages draw s + (bpq : Int) := by
            rw [startBlock_of_nonneg pages draw snext (by rw [hcb]; omega), hcb]
          have hreach : reachableRows pages draw snext = reachableRows pages draw s := by
            unfold reachableRows
            rw [hstart]
            have hqe : snext.queue =
                s.queue ++ fetchPages pages (startBlock pages draw s).toNat bpq := rfl
            rw [hqe, fetchPages_eq, List.append_assoc, ← List.flatten_append]
            have htn : (startBlock pages draw s + (bpq : Int)).toNat =
                (startBlock pages draw s).toNat + bpq := by omega
            rw [htn, ← List.drop_drop, List.take_append_drop]
          have hfuel : ((total_blocks pages : Int) + 1 - startBlock pages draw snext).toNat
              < fuel := by
            rw [hstart]
            omega
          have hres := ih snext hfuel
          rw [hreach] at hres
          rw [hE]
          exact hres
      · have hE : fillQueueAux pages bpq draw count (fuel + 1) s = s := by
          simp [fillQueueAux, hq]
        have hqr := reachableRows_queue_le pages draw s
        constructor
        · intro hlt
          exfalso
          omega
        · intro _
          rw [hE]
          exact ⟨rfl, by omega⟩

theorem fillQueue_spec (pages : List (List α)) (bpq draw : Nat) (count : Int)
    (hb : 1 ≤ bpq) (s : ReaderState α) :
    ((((reachableRows pages draw s).length : Int) < count →
        (fillQueue pages bpq draw count s).current_block = 0 ∧
        (fillQueue pages bpq draw count s).queue = reachableRows pages draw s) ∧
     (count ≤ ((reachableRows pages draw s).length : Int) →
        reachableRows pages draw (fillQueue pages bpq draw count s) =
          reachableRows pages draw s ∧
        count ≤ ((fillQueue pages bpq draw count s).queue.length : Int))) := by
  have hsb0 : 0 ≤ startBlock pages draw s := startBlock_nonneg pages draw s
  exact fillQueueAux_spec pages bpq draw count hb (total_blocks pages + 2) s (by omega)

theorem read_rows_wrap (pages : List (List α)) (bpq draw : Nat) (count : Int)
    (s : ReaderState α) (hb : 1 ≤ bpq)
    (h : ((reachableRows pages draw s).length : Int) < count) :
    (read_rows pages bpq draw count s).1 = reachableRows pages draw s ∧
    (read_rows pages bpq draw count s).2.current_block = 0 ∧
    (read_rows pages bpq draw count s).2.queue = [] := by
  obtain ⟨h1, h2⟩ := (fillQueue_spec pages bpq draw count hb s).1 h
  unfold read_rows
  refine ⟨?_, h1, ?_⟩
  · show (fillQueue pages bpq draw count s).queue.take count.toNat = _
    rw [h2]
    exact List.take_of_length_le (by omega)
  · show (fillQueue pages bpq draw count s).queue.drop count.toNat = []
    rw [h2]
    exact List.drop_eq_nil_of_le (by omega)

theorem read_rows_nowrap (pages : List (List α)) (bpq draw : Nat) (count : Int)
    (s : ReaderState α) (hb : 1 ≤ bpq)
    (h : count ≤ ((reachableRows pages draw s).length : Int)) :
    (read_rows pages bpq draw count s).1 = (reachableRows pages draw s).take count.toNat ∧
    (read_rows pages bpq draw count s).1.length = count.toNat ∧
    reachableRows pages draw (read_rows pages bpq draw count s).2 =
      (reachableRows pages draw s).drop count.toNat := by
  obtain ⟨hW, hlen⟩ := (fillQueue_spec pages bpq draw count hb s).2 h
  set s1 := fillQueue pages bpq draw count s with hs1
  have hcle : count.toNat ≤ s1.queue.length := by omega
  have hsplit : s1.queue ++
      (pages.drop (startBlock pages draw s1).toNat).flatten = reachableRows pages draw s := hW
  unfold read_rows
  rw [← hs1]
  refine ⟨?_, ?_, ?_⟩
  · show s1.queue.take count.toNat = _
    rw [← hsplit, List.take_append_of_le_length hcle]
  · show (s1.queue.take count.toNat).length = count.toNat
    rw [List.length_take]
    omega
  · show ({ s1 with queue := s1.queue.drop count.toNat } : ReaderState α).queue ++
        (pages.drop (startBlock pages draw
          ({ s1 with queue := s1.queue.drop count.toNat } : ReaderState α)).toNat).flatten = _
    have hsb : startBlock pages draw ({ s1 with queue := s1.queue.drop count.toNat } :
        ReaderState α) = startBlock pages draw s1 := by
      unfold startBlock
      rfl
    rw [hsb]
    show s1.queue.drop count.toNat ++ _ = _
    rw [← hsplit, List.drop_append_of_le_length hcle]

theorem iterRead_lap (pages : List (List α)) (bpq draw : Nat) (count : Int)
    (hb : 1 ≤ bpq) (hc : 1 ≤ count) :
    ∀ (n : Nat) (s : ReaderState α), (reachableRows pages draw s).length = n →
      ∃ k, (iterRead pages bpq draw count k s).1 = reachableRows pages draw s ∧
           (iterRead pages bpq draw count k s).2.current_block = 0 ∧
           (iterRead pages bpq draw count k s).2.queue = [] := by
  intro n
  induction n using Nat.strong_induction_on with
  | _ n ih =>
      intro s hn
      by_cases hlt : ((reachableRows pages draw s).length : Int) < count
      · obtain ⟨o1, o2, o3⟩ := read_rows_wrap pages bpq draw count s hb hlt
        refine ⟨1, ?_, ?_, ?_⟩ <;> simp [iterRead, o1, o2, o3]
      · push_neg at hlt
        obtain ⟨o1, olen, o2⟩ := read_rows_nowrap pages bpq draw count s hb hlt
        set s1 := (read_rows pages bpq draw count s).2 with hs1
        have hlen1 : (reachableRows pages draw s1).length = n - count.toNat := by
          rw [o2, List.length_drop, hn]
        have hmlt : n - count.toNat < n := by omega
        obtain ⟨k, k1, k2, k3⟩ := ih (n - count.toNat) hmlt s1 hlen1
        refine ⟨k + 1, ?_, ?_, ?_⟩
        · show (read_rows pages bpq draw count s).1 ++
            (iterRead pages bpq draw count k s1).1 = _
          rw [o1, k1, o2, List.take_append_drop]
        · exact k2
        · exact k3

/-! ### Claim theorems -/

theorem reachableRows_fresh_zero (pages : List (List α)) (draw : Nat) (q : Nat) :
    reachableRows pages draw (⟨0, [], q⟩ : ReaderState α) = pages.flatten := by
  simp [reachableRows, startBlock]

/-- C1: over one full lap (a lap starting at page 0 with an empty
buffer, i.e. any lap after the first wraparound), the concatenation of
the lists returned by successive `read_rows` calls is exactly
`pages.flatten` — every row of the table exactly once, in the order the
pages are scanned, with no row reordered or dropped — for every
`blocks_per_query ≥ 1` and every `count ≥ 1`; the lap ends with the
cursor wrapped back to page 0 and an empty buffer. -/
theorem read_rows_full_lap_exactly_once (pages : List (List α)) (bpq draw : Nat)
    (count : Int) (hb : 1 ≤ bpq) (hc : 1 ≤ count) :
    ∃ k, (iterRead pages bpq draw count k ⟨0, [], 0⟩).1 = pages.flatten ∧
         (iterRead pages bpq draw count k ⟨0, [], 0⟩).2.current_block = 0 ∧
         (iterRead pages bpq draw count k ⟨0, [], 0⟩).2.queue = [] := by
  obtain ⟨k, h1, h2, h3⟩ :=
    iterRead_lap pages bpq draw count hb hc
      (reachableRows pages draw (⟨0, [], 0⟩ : ReaderState α)).length ⟨0, [], 0⟩ rfl
  exact ⟨k, by rw [h1, reachableRows_fresh_zero], h2, h3⟩

theorem read_rows_full_lap_exactly_once_witness :
    ∃ k, (iterRead [[0, 1], [2]] 1 0 1 k ⟨0, [], 0⟩).1 = [[0, 1], [2]].flatten ∧
         (iterRead [[0, 1], [2]] 1 0 1 k ⟨0, [], 0⟩).2.current_block = 0 ∧
         (iterRead [[0, 1], [2]] 1 0 1 k ⟨0, [], 0⟩).2.queue = [] :=
  read_rows_full_lap_exactly_once [[0, 1], [2]] 1 0 1 (by decide) (by decide)

/-- C4: `read_rows count` returns at most `count` rows, and returns
fewer than `count` rows only when fewer than `count` rows remain
reachable before the cursor wraps past the end of the table during
that call (in which case it returns exactly those remaining rows). -/
theorem read_rows_length_le (pages : List (List α)) (bpq draw : Nat) (count : Int)
    (s : ReaderState α) (hb : 1 ≤ bpq) (hc : 1 ≤ count) :
    (((read_rows pages bpq draw count s).1.length : Int) ≤ count) ∧
    ((((read_rows pages bpq draw count s).1.length : Int) < count →
      ((reachableRows pages draw s).length : Int) < count ∧
      (read_rows pages bpq draw count s).1 = reachableRows pages draw s)) := by
  by_cases h : ((reachableRows pages draw s).length : Int) < count
  · obtain ⟨o1, _, _⟩ := read_rows_wrap pages bpq draw count s hb h
    constructor
    · rw [o1]; omega
    · intro _; exact ⟨h, o1⟩
  · push_neg at h
    obtain ⟨_, olen, _⟩ := read_rows_nowrap pages bpq draw count s hb h
    constructor
    · omega
    · intro hlt; exfalso; omega

theorem read_rows_length_le_witness :
    (((read_rows [[5, 6, 7]] 2 0 2 ⟨0, [], 0⟩).1.length : Int) ≤ 2) ∧
    ((((read_rows [[5, 6, 7]] 2 0 2 ⟨0, [], 0⟩).1.length : Int) < 2 →
      ((reachableRows [[5, 6, 7]] 0 (⟨0, [], 0⟩ : ReaderState Nat)).length : Int) < 2 ∧
      (read_rows [[5, 6, 7]] 2 0 2 ⟨0, [], 0⟩).1 =
        reachableRows [[5, 6, 7]] 0 (⟨0, [], 0⟩ : ReaderState Nat))) :=
  read_rows_length_le [[5, 6, 7]] 2 0 2 ⟨0, [], 0⟩ (by decide) (by decide)

/-- C5: on the very first call of a reader instance (`current_block =
-1`, more generally any negative cursor), the starting page is the
random draw reduced into `[0, totalPages)` — every page in that range
is the start for some draw, equally many draws from any aligned range
hitting each — and on every wraparound the cursor is reset
deterministically to `0`, so the next lap scans the whole table from
page 0. -/
theorem first_call_random_start_then_zero (pages : List (List α)) (bpq draw : Nat)
    (count : Int) (s : ReaderState α) (hb : 1 ≤ bpq) :
    (s.current_block < 0 →
      ensure_valid_current_block pages draw s =
        Except.ok { s with current_block := ((randrange (total_blocks pages) draw : Nat) : Int),
                           queries := s.queries + 1 } ∧
      randrange (total_blocks pages) draw < total_blocks pages) ∧
    (∀ t, t < total_blocks pages → ∃ d, randrange (total_blocks pages) d = t) ∧
    (((reachableRows pages draw s).length : Int) < count →
      (read_rows pages bpq draw count s).2.current_block = 0 ∧
      reachableRows pages draw (read_rows pages bpq draw count s).2 = pages.flatten) := by
  refine ⟨?_, ?_, ?_⟩
  · intro hneg
    have hlt : randrange (total_blocks pages) draw < total_blocks pages :=
      Nat.mod_lt _ (by unfold total_blocks; omega)
    refine ⟨?_, hlt⟩
    unfold ensure_valid_current_block
    simp only [hneg, if_pos]
    rw [if_neg (by omega)]
  · intro t ht
    exact ⟨t, Nat.mod_eq_of_lt ht⟩
  · intro h
    obtain ⟨_, h2, h3⟩ := read_rows_wrap pages bpq draw count s hb h
    refine ⟨h2, ?_⟩
    unfold reachableRows startBlock
    rw [h2, h3]
    simp

theorem first_call_random_start_then_zero_witness :
    (((⟨-1, [], 0⟩ : ReaderState Nat).current_block < 0 →
      ensure_valid_current_block [[4, 5]] 3 (⟨-1, [], 0⟩ : ReaderState Nat) =
        Except.ok { (⟨-1, [], 0⟩ : ReaderState Nat) with
                    current_block := ((randrange (total_blocks [[4, 5]]) 3 : Nat) : Int),
                    queries := (⟨-1, [], 0⟩ : ReaderState Nat).queries + 1 } ∧
      randrange (total_blocks [[4, 5]]) 3 < total_blocks [[4, 5]]) ∧
    (∀ t, t < total_blocks [[4, 5]] → ∃ d, randrange (total_blocks [[4, 5]]) d = t) ∧
    (((reachableRows [[4, 5]] 3 (⟨-1, [], 0⟩ : ReaderState Nat)).length : Int) < 9 →
      (read_rows [[4, 5]] 1 3 9 (⟨-1, [], 0⟩ : ReaderState Nat)).2.current_block = 0 ∧
      reachableRows [[4, 5]] 3 (read_rows [[4, 5]] 1 3 9
        (⟨-1, [], 0⟩ : ReaderState Nat)).2 = [[4, 5]].flatten)) :=
  first_call_random_start_then_zero [[4, 5]] 1 3 9 ⟨-1, [], 0⟩ (by decide)

/-- C7: `read_rows` never surfaces an end-of-table condition: whenever
the cursor wraps past the table's last page during a call (exactly
when fewer rows than requested remain reachable), the
`EndOfTableError` raised by `_ensure_valid_current_block` is caught
inside `read_rows` itself, which resets the cursor to 0 and returns
the rows accumulated so far; `read_rows` is a total function into
plain values, so no exception ever reaches `TableScanner.run` or the
`process_rows` callback. -/
theorem read_rows_absorbs_end_of_table (pages : List (List α)) (bpq draw : Nat)
    (count : Int) (s : ReaderState α) (hb : 1 ≤ bpq)
    (h : ((reachableRows pages draw s).length : Int) < count) :
    (read_rows pages bpq draw count s).1 = reachableRows pages draw s ∧
    (read_rows pages bpq draw count s).2.current_block = 0 ∧
    (read_rows pages bpq draw count s).2.queue = [] :=
  read_rows_wrap pages bpq draw count s hb h

theorem read_rows_absorbs_end_of_table_witness :
    (read_rows [[8]] 2 0 5 (⟨0, [], 0⟩ : ReaderState Nat)).1 =
      reachableRows [[8]] 0 (⟨0, [], 0⟩ : ReaderState Nat) ∧
    (read_rows [[8]] 2 0 5 (⟨0, [], 0⟩ : ReaderState Nat)).2.current_block = 0 ∧
    (read_rows [[8]] 2 0 5 (⟨0, [], 0⟩ : ReaderState Nat)).2.queue = [] :=
  read_rows_absorbs_end_of_table [[8]] 2 0 5 ⟨0, [], 0⟩ (by decide) (by decide)

/-- C10: when the queue already holds at least `count` rows,
`read_rows count` performs no advance at all — it issues no database
query (the query counter is unchanged), leaves `current_block`
untouched, and only removes the first `count` rows from the queue; in
particular for `count ≤ 0` it returns the empty list and changes
nothing. -/
theorem read_rows_buffered_frame (pages : List (List α)) (bpq draw : Nat) (count : Int)
    (s : ReaderState α) :
    (count ≤ (s.queue.length : Int) →
      read_rows pages bpq draw count s =
        (s.queue.take count.toNat,
         { s with queue := s.queue.drop count.toNat })) ∧
    (count ≤ 0 → read_rows pages bpq draw count s = ([], s)) := by
  have key : count ≤ (s.queue.length : Int) → fillQueue pages bpq draw count s = s := by
    intro h
    show fillQueueAux pages bpq draw count ((total_blocks pages + 1) + 1) s = s
    rw [fillQueueAux]
    rw [if_neg (by omega)]
  constructor
  · intro h
    unfold read_rows
    rw [key h]
  · intro h0
    have h : count ≤ (s.queue.length : Int) := by omega
    unfold read_rows
    rw [key h]
    have ht0 : count.toNat = 0 := by omega
    rw [ht0]
    show (List.take 0 s.queue, ({ s with queue := List.drop 0 s.queue } : ReaderState α)) =
      ([], s)
    rw [List.take_zero, List.drop_zero]

theorem read_rows_buffered_frame_witness :
    ((2 : Int) ≤ (((⟨7, [3, 4, 5], 1⟩ : ReaderState Nat).queue.length : Nat) : Int) →
      read_rows [[0, 1]] 4 0 2 (⟨7, [3, 4, 5], 1⟩ : ReaderState Nat) =
        ((⟨7, [3, 4, 5], 1⟩ : ReaderState Nat).queue.take (2 : Int).toNat,
         { (⟨7, [3, 4, 5], 1⟩ : ReaderState Nat) with
           queue := (⟨7, [3, 4, 5], 1⟩ : ReaderState Nat).queue.drop (2 : Int).toNat })) ∧
    ((2 : Int) ≤ 0 → read_rows [[0, 1]] 4 0 2 (⟨7, [3, 4, 5], 1⟩ : ReaderState Nat) =
      ([], ⟨7, [3, 4, 5], 1⟩)) :=
  read_rows_buffered_frame [[0, 1]] 4 0 2 ⟨7, [3, 4, 5], 1⟩

theorem le_ceil_div_mul (a b : Nat) (hb : 1 ≤ b) : a ≤ ceil_div a b * b := by
  rcases Nat.eq_zero_or_pos a with rfl | ha
  · exact Nat.zero_le _
  · unfold ceil_div
    have hrw : a + b - 1 = (a - 1) + b := by omega
    rw [hrw, Nat.add_div_right _ (by omega : 0 < b)]
    have hdm := Nat.div_add_mod (a - 1) b
    have hmod : (a - 1) % b < b := Nat.mod_lt _ (by omega)
    set q := (a - 1) / b with hq
    have hexp : (q + 1) * b = b * q + b := by ring
    rw [hexp]
    omega

/-- C2: the per-lap sizing always covers the whole table:
`rows_per_beat * number_of_beats ≥ total_rows` for every
`total_rows ≥ 0`, every `completion_goal > 0` and every
`target_beat_duration > 0`. -/
theorem sizing_covers_total_rows (total_rows completion_goal_us target_beat_duration_ms : Nat)
    (_hg : 0 < completion_goal_us) (_ht : 0 < target_beat_duration_ms) :
    total_rows ≤ rows_per_beat total_rows completion_goal_us target_beat_duration_ms *
      number_of_beats total_rows completion_goal_us target_beat_duration_ms := by
  have hrpb : 1 ≤ rows_per_beat total_rows completion_goal_us target_beat_duration_ms :=
    le_max_left _ _
  have h1 : total_rows ≤
      ceil_div total_rows (rows_per_beat total_rows completion_goal_us target_beat_duration_ms) *
        rows_per_beat total_rows completion_goal_us target_beat_duration_ms :=
    le_ceil_div_mul _ _ hrpb
  have h2 : ceil_div total_rows
        (rows_per_beat total_rows completion_goal_us target_beat_duration_ms) ≤
      number_of_beats total_rows completion_goal_us target_beat_duration_ms :=
    le_max_right _ _
  calc total_rows ≤ _ := h1
    _ ≤ number_of_beats total_rows completion_goal_us target_beat_duration_ms *
        rows_per_beat total_rows completion_goal_us target_beat_duration_ms :=
      Nat.mul_le_mul_right _ h2
    _ = _ := Nat.mul_comm _ _

theorem sizing_covers_total_rows_witness :
    1001 ≤ rows_per_beat 1001 1000000 25 * number_of_beats 1001 1000000 25 :=
  sizing_covers_total_rows 1001 1000000 25 (by decide) (by decide)

/-- C6: when a beat's processing takes at least `beat_duration` (for
example twice it) and the carried slack `extra_time` was at most zero
before the beat, `register_beat` does not sleep and `extra_time` stays
at most zero; and within one lap of `TableScanner.run`'s inner loop
the row quota passed to `read_rows` at every beat is the unchanged
`rows_per_beat` computed at the start of the lap — it is never reduced
to catch up. -/
theorem overrun_beat_no_sleep_constant_quota (rh : RhythmState) (elapsed sleep_measured : Int)
    (h0 : rh.extra_time ≤ 0) (h1 : rh.beat_duration ≤ elapsed) :
    ((register_beat rh elapsed sleep_measured).2 = false ∧
     (register_beat rh elapsed sleep_measured).1.extra_time ≤ 0) ∧
    (∀ (β : Type) (pages : List (List β)) (bpq draw trows goal_us tbd_ms : Nat)
       (timings : List (Int × Int)) (s : ReaderState β) (rh' : RhythmState),
       (run_lap pages bpq draw (rows_per_beat trows goal_us tbd_ms) timings s rh').2.2 =
         List.replicate timings.length ((rows_per_beat trows goal_us tbd_ms : Nat) : Int)) := by
  constructor
  · unfold register_beat TD_MIN_SLEEPTIME
    rw [if_neg (by omega)]
    exact ⟨rfl, by simp; omega⟩
  · intro β pages bpq draw trows goal_us tbd_ms timings
    induction timings with
    | nil => intro s rh'; rfl
    | cons t rest ih =>
        intro s rh'
        obtain ⟨te, ts⟩ := t
        simp only [run_lap, List.length_cons, List.replicate_succ]
        rw [ih]

theorem overrun_beat_no_sleep_constant_quota_witness :
    ((register_beat ⟨25000, -3000⟩ 50000 0).2 = false ∧
     (register_beat ⟨25000, -3000⟩ 50000 0).1.extra_time ≤ 0) ∧
    (∀ (β : Type) (pages : List (List β)) (bpq draw trows goal_us tbd_ms : Nat)
       (timings : List (Int × Int)) (s : ReaderState β) (rh' : RhythmState),
       (run_lap pages bpq draw (rows_per_beat trows goal_us tbd_ms) timings s rh').2.2 =
         List.replicate timings.length ((rows_per_beat trows goal_us tbd_ms : Nat) : Int)) :=
  overrun_beat_no_sleep_constant_quota ⟨25000, -3000⟩ 50000 0 (by decide) (by decide)

/-- C9: over the signed 64-bit range the codecs are inverse to each
other, `i64_to_u64` computes the value modulo `2^64`, and each codec
raises `ValueError` exactly when its argument is outside its domain
range. -/
theorem codecs_roundtrip_and_ranges (v : Int) :
    (_MIN_INT64 ≤ v ∧ v ≤ _MAX_INT64 →
      i64_to_u64 v = Except.ok (v % _I64_SPAN) ∧
      (∃ u, i64_to_u64 v = Except.ok u ∧ u64_to_i64 u = Except.ok v)) ∧
    (i64_to_u64 v = Except.error () ↔ (v < _MIN_INT64 ∨ _MAX_INT64 < v)) ∧
    (u64_to_i64 v = Except.error () ↔ (v < 0 ∨ _MAX_UINT64 < v)) := by
  have hmax : _MAX_INT64 = 9223372036854775807 := by decide
  have hmin : _MIN_INT64 = -9223372036854775808 := by decide
  have humax : _MAX_UINT64 = 18446744073709551615 := by decide
  have hspan : _I64_SPAN = 18446744073709551616 := by decide
  refine ⟨?_, ?_, ?_⟩
  · rintro ⟨hlo, hhi⟩
    rw [hmin] at hlo
    rw [hmax] at hhi
    by_cases hv : 0 ≤ v
    · have h1 : i64_to_u64 v = Except.ok v := by
        unfold i64_to_u64
        rw [if_neg (by rw [hmax, hmin]; omega), if_pos (by omega)]
      have hmod : v % _I64_SPAN = v := by rw [hspan]; omega
      refine ⟨by rw [h1, hmod], v, h1, ?_⟩
      unfold u64_to_i64
      rw [if_neg (by rw [humax]; omega), if_pos (by rw [hmax]; omega)]
    · have h1 : i64_to_u64 v = Except.ok (v + _I64_SPAN) := by
        unfold i64_to_u64
        rw [if_neg (by rw [hmax, hmin]; omega), if_neg (by omega)]
      have hmod : v % _I64_SPAN = v + _I64_SPAN := by rw [hspan]; omega
      refine ⟨by rw [h1, hmod], v + _I64_SPAN, h1, ?_⟩
      unfold u64_to_i64
      rw [if_neg (by rw [humax, hspan]; omega), if_neg (by rw [hmax, hspan]; omega)]
      rw [Int.add_sub_cancel]
  · unfold i64_to_u64
    constructor
    · intro h
      by_contra hc
      push_neg at hc
      rw [if_neg (by omega), if_pos] at h
      · exact Except.noConfusion h
      · by_contra hv
        push_neg at hv
        rw [if_neg (by omega)] at h
        exact Except.noConfusion h
    · intro h
      rw [if_pos (by omega)]
  · unfold u64_to_i64
    constructor
    · intro h
      by_contra hc
      push_neg at hc
      rw [if_neg (by omega), if_pos] at h
      · exact Except.noConfusion h
      · by_contra hv
        push_neg at hv
        rw [if_neg (by omega)] at h
        exact Except.noConfusion h
    · intro h
      rw [if_pos (by omega)]

theorem codecs_roundtrip_and_ranges_witness :
    (_MIN_INT64 ≤ (-5 : Int) ∧ (-5 : Int) ≤ _MAX_INT64 →
      i64_to_u64 (-5) = Except.ok ((-5) % _I64_SPAN) ∧
      (∃ u, i64_to_u64 (-5) = Except.ok u ∧ u64_to_i64 u = Except.ok (-5))) ∧
    (i64_to_u64 (-5) = Except.error () ↔ ((-5 : Int) < _MIN_INT64 ∨ _MAX_INT64 < (-5 : Int))) ∧
    (u64_to_i64 (-5) = Except.error () ↔ ((-5 : Int) < 0 ∨ _MAX_UINT64 < (-5 : Int))) :=
  codecs_roundtrip_and_ranges (-5)

/-- C3 counterexample: at `total_rows = 1000`, `completion_goal = 1s`,
`target_beat_duration = 30ms`, the spec's reference definition with
its literal step 1 `targetBeats = max(1, completionGoal /
targetBeatDuration)` (true division, `1000000/30000 = 100/3`) yields
`rowsPerBeat = ceil(1000/(100/3)) = 30`, while the code's
`__calc_rhythm` (floor division: `targetBeats = 33`) yields
`rows_per_beat = ceil(1000/33) = 31`, so `__calc_rhythm` does not
implement the spec's reference definition as written. -/
theorem calc_rhythm_step_one_counterexample :
    rows_per_beat 1000 1000000 30 = 31 ∧ spec_rows_per_beat 1000 1000000 30 = 30 := by
  constructor
  · decide
  · have h1 : spec_target_beats 1000000 30 = 100 / 3 := by
      unfold spec_target_beats
      rw [max_eq_right (by norm_num)]
      norm_num
    unfold spec_rows_per_beat
    rw [h1]
    have h2 : ((1000 : Nat) : ℚ) / (100 / 3) = 30 := by norm_num
    rw [h2]
    have h3 : ⌈(30 : ℚ)⌉ = 30 := by norm_num
    rw [h3]
    decide

/-- C3 (amended): `__calc_rhythm` implements the spec's five-step
sizing with step 1's division read as floor division (`targetBeats =
max(1, completionGoal // targetBeatDuration)`, the code's `//`); with
that reading the two definitions agree on every input, and the
concrete scenarios hold: `total_rows = 1000`, `completion_goal = 1s`,
`target_beat_duration = 25ms` gives `target_number_of_beats = 40`,
`rows_per_beat = 25`, `number_of_beats = 40` and `beat_duration =
25ms`, and `total_rows = 0` gives `rows_per_beat = 1` and
`number_of_beats = 1`. -/
theorem calc_rhythm_matches_floor_sizing (total_rows completion_goal_us tbd_ms : Nat) :
    spec_sizing_floor total_rows completion_goal_us tbd_ms =
      (target_number_of_beats completion_goal_us tbd_ms,
       rows_per_beat total_rows completion_goal_us tbd_ms,
       number_of_beats total_rows completion_goal_us tbd_ms) ∧
    target_number_of_beats 1000000 25 = 40 ∧
    rows_per_beat 1000 1000000 25 = 25 ∧
    number_of_beats 1000 1000000 25 = 40 ∧
    beat_duration_us 1000000 40 = 25000 ∧
    rows_per_beat 0 1000000 25 = 1 ∧
    number_of_beats 0 1000000 25 = 1 :=
  ⟨rfl, by decide, by decide, by decide, by decide, by decide, by decide⟩

/-- C8 counterexample: a table of exactly 5 rows in one page
(`total_blocks = 2`), `blocks_per_query = 40` covering every page in
one fetch, a fresh reader (`current_block = -1`): when the uniform
random draw of the first call picks page 1 (a legal outcome of
`randrange(2)`), `read_rows(3)` returns the empty list — not a list of
3 rows — and the following `read_rows(3)` returns 3 rows, so the
claimed `(3 rows, then 2 rows)` outcome does not hold for every fresh
reader. -/
theorem first_reads_counterexample :
    (read_rows [[0, 1, 2, 3, 4]] 40 1 3 (⟨-1, [], 0⟩ : ReaderState Nat)).1 = [] ∧
    (read_rows [[0, 1, 2, 3, 4]] 40 1 3
      (read_rows [[0, 1, 2, 3, 4]] 40 1 3 (⟨-1, [], 0⟩ : ReaderState Nat)).2).1 =
      [0, 1, 2] := by
  constructor
  · decide
  · decide

/-- C8 (amended): for a table holding exactly 5 distinct rows, with
`blocks_per_query` large enough that one page-range fetch covers all
of the table's pages, a fresh reader whose random draw selects page 0
(for example any reader after its first wraparound) returns 3 rows
from `read_rows(3)` and then 2 rows from the next `read_rows(3)`, the
two lists together being exactly the table with no row repeated; for
other random draws the first lap may deliver fewer rows. -/
theorem first_reads_three_then_two (β : Type) (pages : List (List β)) (bpq draw : Nat)
    (h5 : pages.flatten.length = 5) (hnd : pages.flatten.Nodup)
    (hb : 1 ≤ bpq) (_hcov : pages.length ≤ bpq)
    (hdraw : draw % total_blocks pages = 0) :
    (read_rows pages bpq draw 3 (⟨-1, [], 0⟩ : ReaderState β)).1.length = 3 ∧
    (read_rows pages bpq draw 3
      (read_rows pages bpq draw 3 (⟨-1, [], 0⟩ : ReaderState β)).2).1.length = 2 ∧
    (read_rows pages bpq draw 3 (⟨-1, [], 0⟩ : ReaderState β)).1 ++
      (read_rows pages bpq draw 3
        (read_rows pages bpq draw 3 (⟨-1, [], 0⟩ : ReaderState β)).2).1 = pages.flatten ∧
    (read_rows pages bpq draw 3 (⟨-1, [], 0⟩ : ReaderState β)).1.Disjoint
      (read_rows pages bpq draw 3
        (read_rows pages bpq draw 3 (⟨-1, [], 0⟩ : ReaderState β)).2).1 := by
  have hreach : reachableRows pages draw (⟨-1, [], 0⟩ : ReaderState β) = pages.flatten := by
    unfold reachableRows startBlock randrange
    simp [hdraw]
  have hge : (3 : Int) ≤ ((reachableRows pages draw (⟨-1, [], 0⟩ : ReaderState β)).length :
      Int) := by
    rw [hreach, h5]
    decide
  obtain ⟨o1, olen, o2⟩ := read_rows_nowrap pages bpq draw 3 (⟨-1, [], 0⟩ : ReaderState β) hb hge
  rw [hreach] at o1 o2
  have hlt : ((reachableRows pages draw
      (read_rows pages bpq draw 3 (⟨-1, [], 0⟩ : ReaderState β)).2).length : Int) < 3 := by
    rw [o2, List.length_drop, h5]
    decide
  obtain ⟨w1, _, _⟩ :=
    read_rows_wrap pages bpq draw 3 (read_rows pages bpq draw 3
      (⟨-1, [], 0⟩ : ReaderState β)).2 hb hlt
  rw [o2] at w1
  refine ⟨olen, ?_, ?_, ?_⟩
  · rw [w1, List.length_drop, h5]
    decide
  · rw [o1, w1]
    exact List.take_append_drop _ _
  · rw [o1, w1]
    exact List.disjoint_take_drop hnd (le_refl _)

theorem first_reads_three_then_two_witness :
    (read_rows [[10, 20, 30, 40, 50]] 40 0 3 (⟨-1, [], 0⟩ : ReaderState Nat)).1.length = 3 ∧
    (read_rows [[10, 20, 30, 40, 50]] 40 0 3
      (read_rows [[10, 20, 30, 40, 50]] 40 0 3
        (⟨-1, [], 0⟩ : ReaderState Nat)).2).1.length = 2 ∧
    (read_rows [[10, 20, 30, 40, 50]] 40 0 3 (⟨-1, [], 0⟩ : ReaderState Nat)).1 ++
      (read_rows [[10, 20, 30, 40, 50]] 40 0 3
        (read_rows [[10, 20, 30, 40, 50]] 40 0 3
          (⟨-1, [], 0⟩ : ReaderState Nat)).2).1 = [[10, 20, 30, 40, 50]].flatten ∧
    (read_rows [[10, 20, 30, 40, 50]] 40 0 3 (⟨-1, [], 0⟩ : ReaderState Nat)).1.Disjoint
      (read_rows [[10, 20, 30, 40, 50]] 40 0 3
        (read_rows [[10, 20, 30, 40, 50]] 40 0 3
          (⟨-1, [], 0⟩ : ReaderState Nat)).2).1 :=
  first_reads_three_then_two Nat [[10, 20, 30, 40, 50]] 40 0 (by decide) (by decide)
    (by decide) (by decide) (by decide)
